import Mathlib

/-!
Shallow embedding of the MaxAccountsWeb client-side event loggers.

Two logger variants exist in the source:
  - `src/unnamed/part_002` (namespace `StaticLogger` below): the batching
    variant with a durable log (`entries`), a pending queue
    (`pendingEntries`), periodic flush to a remote endpoint and
    retry-by-requeue.
  - `src/js/static-logger.js` (namespace `SimpleLogger` below): the simple
    variant with a durable log (`logs`) only, console mirroring and a
    level filter on `getLogs`.

JavaScript values stored or transmitted as JSON are modelled by the
`Json` inductive; `JSON.stringify` followed by `JSON.parse` is modelled
as the identity on `Json` trees.  Nondeterministic environment inputs
(generated ids, clock readings, location, screen size) are passed in as
an explicit environment record.  Storage failures (setItem / getItem /
removeItem throwing) are modelled by explicit boolean parameters; an
operation of the source that catches the failure is a total function,
while `clear`, whose `removeItem` call is not wrapped in try/catch in
the source, returns `Except` with the error carrying the state at the
point of the throw.
-/

/-- Model of a JSON value.  Numbers are modelled as integers: every
number occurring in the logger data (screen sizes, line numbers) is an
integer. -/
inductive Json where
  | null : Json
  | bool (b : Bool) : Json
  | num (n : Int) : Json
  | str (s : String) : Json
  | arr (elems : List Json) : Json
  | obj (fields : List (String × Json)) : Json
deriving Repr

/-- JavaScript truthiness of a JSON value: null, false, 0 and the empty
string are falsy; arrays and objects are always truthy. -/
def Json.jsTruthy : Json → Bool
  | .null => false
  | .bool b => b
  | .num n => n != 0
  | .str s => s != ""
  | .arr _ => true
  | .obj _ => true

/-- Model of the JavaScript expression `x || null`, as used for
`data: data || null` and `referrer: document.referrer || null`. -/
def Json.orNull (j : Json) : Json :=
  if j.jsTruthy then j else .null

/-- Helper for `Json.lookup`: first matching key. -/
def Json.lookupFields : List (String × Json) → String → Json
  | [], _ => .null
  | (k2, v) :: rest, k => if k2 = k then v else Json.lookupFields rest k

/-- Field lookup in a JSON object model (fields are assumed to have
distinct keys, as produced by the serializers below); reading a field
of a non-object, or a missing field, yields `null` (modelling the falsy
`undefined`). -/
def Json.lookup : Json → String → Json
  | .obj fields, k => Json.lookupFields fields k
  | _, _ => .null

/-- State of the durable storage slot under the fixed key
`static_site_logs`, as seen by `localStorage.getItem`:
absent (`getItem` returns null), the empty string (falsy, treated like
absent by the load code), a string that is not valid JSON
(`JSON.parse` throws), or a string parsing to the JSON value `j`. -/
inductive Stored where
  | absent : Stored
  | emptyStr : Stored
  | malformed : Stored
  | json (j : Json) : Stored
deriving Repr

namespace StaticLogger

/-- `MAX_ENTRIES` of `src/unnamed/part_002`. -/
def MAX_ENTRIES : Nat := 100

/-- A log entry of the batching logger.  `trackPageView` builds objects
with one set of keys, `logError` / `log` with another, so the entry is a
sum.  Fields holding dynamically typed JavaScript values (`siteId`,
`referrer`, `data`) are typed `Json`. -/
inductive LogEntry where
  | pageview (id timestamp : String) (siteId : Json) (path title : String)
      (referrer : Json) (screenWidth screenHeight : Int) : LogEntry
  | event (id typ timestamp : String) (siteId : Json) (level message : String)
      (data : Json) (path : String) : LogEntry
deriving Repr

/-- The `level` field of an entry, when present (`undefined` on a
pageview object, modelled as `none`). -/
def LogEntry.level : LogEntry → Option String
  | .pageview .. => none
  | .event _ _ _ _ level _ _ _ => some level

/-- Serialization of one entry to the JSON object the source builds,
key for key (`JSON.stringify` keeps the insertion order of keys). -/
def encodeEntry : LogEntry → Json
  | .pageview id ts siteId path title referrer w h =>
      .obj [("id", .str id), ("type", .str "pageview"), ("timestamp", .str ts),
            ("siteId", siteId), ("path", .str path), ("title", .str title),
            ("referrer", referrer), ("screenWidth", .num w), ("screenHeight", .num h)]
  | .event id typ ts siteId level msg data path =>
      .obj [("id", .str id), ("type", .str typ), ("timestamp", .str ts),
            ("siteId", siteId), ("level", .str level), ("message", .str msg),
            ("data", data), ("path", .str path)]

/-- Reading one entry back from its JSON object, field for field.  The
two shapes are disjoint (different key sets), so the order of the two
cases does not matter. -/
def decodeEntry : Json → Option LogEntry
  | .obj [("id", .str id), ("type", .str typ), ("timestamp", .str ts),
          ("siteId", siteId), ("level", .str level), ("message", .str msg),
          ("data", data), ("path", .str path)] =>
      some (.event id typ ts siteId level msg data path)
  | .obj [("id", .str id), ("type", typ), ("timestamp", .str ts),
          ("siteId", siteId), ("path", .str path), ("title", .str title),
          ("referrer", referrer), ("screenWidth", .num w), ("screenHeight", .num h)] =>
      match typ with
      | .str "pageview" => some (.pageview id ts siteId path title referrer w h)
      | _ => none
  | _ => none

/-- Reading back a list of serialized entries. -/
def decodeEntries : List Json → Option (List LogEntry)
  | [] => some []
  | j :: rest =>
      match decodeEntry j, decodeEntries rest with
      | some e, some es => some (e :: es)
      | _, _ => none

/-- Reading the whole durable log back from the stored JSON value:
anything that is not an array of well-formed entry objects fails. -/
def decodeLog : Json → Option (List LogEntry)
  | .arr xs => decodeEntries xs
  | _ => none

/-- Merged configuration of `part_002` (defaults overridden by
`window.StaticLoggerConfig`), resolved once at startup. -/
structure Config where
  apiEndpoint : Option String
  apiKey : Option String
  siteId : Json
  trackPageViews : Bool
  batchInterval : Nat
  maxBatchSize : Nat
  debugMode : Bool

/-- The `defaultConfig` object of `part_002`. -/
def defaultConfig : Config :=
  { apiEndpoint := none, apiKey := none, siteId := .null,
    trackPageViews := true, batchInterval := 30000,
    maxBatchSize := 20, debugMode := false }

/-- JavaScript truthiness of an optional string (an absent value is
`undefined`, falsy; the empty string is falsy). -/
def strTruthy : Option String → Bool
  | none => false
  | some s => s != ""

/-- Environment snapshot read by one capture call: the id produced by
`generateId()`, the clock reading `new Date().toISOString()`, and the
browser introspection values. -/
structure Env where
  newId : String
  nowIso : String
  path : String
  title : String
  referrer : String
  screenWidth : Int
  screenHeight : Int

/-- Mutable state of the `StaticLogger` object: the in-memory durable
log `entries`, the in-memory pending queue `pendingEntries`, and the
durable storage slot under `STORAGE_KEY` (shared with `localStorage`).
The timer handle and page start time carry no data relevant to the
claims. -/
structure State where
  entries : List LogEntry
  pendingEntries : List LogEntry
  slot : Stored

/-- `loadFromStorage` (lines 67 to 74 of `part_002`): the raw JSON value
assigned to `this.entries`.  A falsy stored string gives `[]`; a parse
failure is caught and gives `[]`; otherwise the parsed value is
assigned unchanged, even when it is not an array.  The identically
structured `loadLogs` of `static-logger.js` (lines 21 to 28) is
modelled by the same function. -/
def loadFromStorage : Stored → Json
  | .absent => .arr []
  | .emptyStr => .arr []
  | .malformed => .arr []
  | .json j => j

/-- The eviction step inside `saveToStorage`: when the durable log
holds more than `MAX_ENTRIES` entries, keep only the last
`MAX_ENTRIES` (`this.entries.slice(-MAX_ENTRIES)`). -/
def trimEntries (l : List LogEntry) : List LogEntry :=
  if l.length > MAX_ENTRIES then l.drop (l.length - MAX_ENTRIES) else l

/-- `saveToStorage` (lines 76 to 85 of `part_002`): trim the in-memory
durable log, then attempt `localStorage.setItem`.  `writeOk = false`
models a throwing `setItem`; the exception is caught, so the trimmed
in-memory log is kept and only the storage slot is left unchanged. -/
def saveToStorage (writeOk : Bool) (s : State) : State :=
  let trimmed := trimEntries s.entries
  { s with entries := trimmed,
           slot := if writeOk then .json (.arr (trimmed.map encodeEntry)) else s.slot }

/-- The page view entry built by `trackPageView` (lines 91 to 109). -/
def mkPageViewEntry (cfg : Config) (env : Env) : LogEntry :=
  .pageview env.newId env.nowIso cfg.siteId env.path env.title
    (Json.orNull (.str env.referrer)) env.screenWidth env.screenHeight

/-- `trackPageView`: build the entry, push it onto both the durable log
and the pending queue, persist. -/
def trackPageView (writeOk : Bool) (env : Env) (cfg : Config) (s : State) : State :=
  let entry := mkPageViewEntry cfg env
  saveToStorage writeOk
    { s with entries := s.entries ++ [entry],
             pendingEntries := s.pendingEntries ++ [entry] }

/-- The error entry built by `logError` (lines 111 to 129); the `data`
argument goes through `data || null`. -/
def mkErrorEntry (cfg : Config) (env : Env) (message : String) (data : Json) : LogEntry :=
  .event env.newId "error" env.nowIso cfg.siteId "ERROR" message (Json.orNull data) env.path

/-- `logError`: build the entry, push it onto both views, persist, and
return the entry to the caller. -/
def logError (writeOk : Bool) (env : Env) (cfg : Config)
    (message : String) (data : Json) (s : State) : LogEntry × State :=
  let entry := mkErrorEntry cfg env message data
  (entry,
   saveToStorage writeOk
     { s with entries := s.entries ++ [entry],
              pendingEntries := s.pendingEntries ++ [entry] })

/-- The entry built by the public `log` (lines 216 to 233): type `log`,
level `INFO`. -/
def mkLogEntry (cfg : Config) (env : Env) (message : String) (data : Json) : LogEntry :=
  .event env.newId "log" env.nowIso cfg.siteId "INFO" message (Json.orNull data) env.path

/-- `log`: build the entry, push it onto both views, persist, and
return the entry to the caller. -/
def log (writeOk : Bool) (env : Env) (cfg : Config)
    (message : String) (data : Json) (s : State) : LogEntry × State :=
  let entry := mkLogEntry cfg env message data
  (entry,
   saveToStorage writeOk
     { s with entries := s.entries ++ [entry],
              pendingEntries := s.pendingEntries ++ [entry] })

/-- `init` (lines 38 to 59): load the durable log from storage, then
capture one page view when `trackPageViews` is enabled.  Handler and
timer installation carry no state relevant to the claims.  When the
stored value parses to something other than an array of entry objects,
the in-memory durable log is no longer a list of entries (the next
`this.entries.push` throws); that degenerate case is modelled as
`none`. -/
def init (writeOk : Bool) (env : Env) (cfg : Config) (slot : Stored) : Option State :=
  match decodeLog (loadFromStorage slot) with
  | none => none
  | some loaded =>
      let s : State := { entries := loaded, pendingEntries := [], slot := slot }
      some (if cfg.trackPageViews then trackPageView writeOk env cfg s else s)

/-- Outcome of one network transmission, supplied by the environment:
the response body when `fetch` resolved and its body parsed, or the two
rejection paths. -/
inductive NetOutcome where
  | body (j : Json) : NetOutcome
  | badBody (errMsg : String) : NetOutcome
  | netFail (errMsg : String) : NetOutcome

/-- The headers built by `sendToApi` (lines 188 to 195). -/
def buildHeaders (cfg : Config) : List (String × String) :=
  [("Content-Type", "application/json")] ++
    (match cfg.apiKey with
     | some k => [("X-API-Key", k)]
     | none => [])

/-- The payload object built by `sendPendingData` (lines 166 to 170). -/
def buildPayload (cfg : Config) (entriesToSend : List LogEntry) : Json :=
  .obj [("siteId", cfg.siteId),
        ("apiKey", match cfg.apiKey with | some k => .str k | none => .null),
        ("entries", .arr (entriesToSend.map encodeEntry))]

/-- `sendToApi` (lines 188 to 209): the promise always resolves; any
rejection of `fetch` or of `response.json()` is caught and replaced by
a `success: false` object, so no error ever reaches the caller. -/
def sendToApi (net : NetOutcome) : Json :=
  match net with
  | .body j => j
  | .badBody m => .obj [("success", .bool false), ("error", .str m)]
  | .netFail m => .obj [("success", .bool false), ("error", .str m)]

/-- The `!response.success` test of line 177: JavaScript truthiness of
the `success` field of the response. -/
def responseSuccess (resp : Json) : Bool :=
  (resp.lookup "success").jsTruthy

/-- First, synchronous half of `sendPendingData` (lines 159 to 172):
when an endpoint is configured (truthy) and the pending queue is not
empty, `splice(0, maxBatchSize)` removes up to `maxBatchSize` entries
from the front of the pending queue and returns them as the batch;
otherwise the call is a no-op, modelled as `none`. -/
def sendPendingData (cfg : Config) (s : State) : Option (List LogEntry × State) :=
  if strTruthy cfg.apiEndpoint = false ∨ s.pendingEntries.isEmpty then none
  else
    some (s.pendingEntries.take cfg.maxBatchSize,
          { s with pendingEntries := s.pendingEntries.drop cfg.maxBatchSize })

/-- Second, asynchronous half of `sendPendingData` (lines 174 to 185):
when the response resolved by `sendToApi` does not indicate success,
the removed batch is put back by
`pendingEntries = entriesToSend.concat(pendingEntries)`; the state `s`
here is the state at callback time, which may contain entries enqueued
after the flush attempt started. -/
def requeueOnFailure (batch : List LogEntry) (resp : Json) (s : State) : State :=
  if responseSuccess resp then s
  else { s with pendingEntries := batch ++ s.pendingEntries }

/-- `flush` (lines 211 to 213) under the synchronous schedule in which
the network outcome arrives before any further capture: one
`sendPendingData` round with its completion callback. -/
def flush (cfg : Config) (net : NetOutcome) (s : State) : State :=
  match sendPendingData cfg s with
  | none => s
  | some (batch, s1) => requeueOnFailure batch (sendToApi net) s1

/-- `clear` (lines 239 to 243): empty both in-memory views, then call
`localStorage.removeItem` with no try/catch around it.  `removeOk =
false` models a throwing `removeItem`: the exception propagates to the
caller (the `error` branch), carrying the state at the throw, whose
in-memory views are already empty. -/
def clear (removeOk : Bool) (s : State) : Except State State :=
  let s2 : State := { s with entries := [], pendingEntries := [] }
  if removeOk then .ok { s2 with slot := .absent } else .error s2

/-- `getEntries` (lines 235 to 237): the function takes no parameter
and returns the whole durable log; a filter argument passed by a caller
is ignored (JavaScript drops extra arguments). -/
def getEntries (s : State) (_filterLevel : Option String) : List LogEntry :=
  s.entries

end StaticLogger

namespace SimpleLogger

/-- `MAX_LOGS` of `src/js/static-logger.js`. -/
def MAX_LOGS : Nat := 100

/-- A log entry of the simple logger (`static-logger.js` lines 43 to
50): one uniform shape, no id and no type field. -/
structure SLEntry where
  timestamp : String
  level : String
  message : String
  data : Json
  page : String
  userAgent : String
deriving Repr

/-- Environment snapshot read by one capture call of the simple
logger. -/
structure SLEnv where
  nowIso : String
  path : String
  referrer : String
  screenWidth : Int
  screenHeight : Int
  userAgent : String

/-- Serialization of one simple-logger entry, key for key. -/
def encodeSLEntry (e : SLEntry) : Json :=
  .obj [("timestamp", .str e.timestamp), ("level", .str e.level),
        ("message", .str e.message), ("data", e.data),
        ("page", .str e.page), ("userAgent", .str e.userAgent)]

/-- State of the simple logger: the in-memory durable log `logs` and
the storage slot under `STORAGE_KEY`. -/
structure SLState where
  logs : List SLEntry
  slot : Stored

/-- The eviction step inside `saveLogs` (lines 33 to 35): keep only the
last `MAX_LOGS` entries. -/
def trimLogs (l : List SLEntry) : List SLEntry :=
  if l.length > MAX_LOGS then l.drop (l.length - MAX_LOGS) else l

/-- `saveLogs` (lines 30 to 40): trim the in-memory log, then attempt
`localStorage.setItem`; a throwing `setItem` (`writeOk = false`) is
caught (a console warning only), keeping the trimmed in-memory log. -/
def saveLogs (writeOk : Bool) (s : SLState) : SLState :=
  let trimmed := trimLogs s.logs
  { s with logs := trimmed,
           slot := if writeOk then .json (.arr (trimmed.map encodeSLEntry)) else s.slot }

/-- The entry built by `log` (lines 43 to 50); `data` goes through
`data || null` and the user agent through `substring(0, 100)`. -/
def mkSLEntry (env : SLEnv) (level message : String) (data : Json) : SLEntry :=
  { timestamp := env.nowIso, level := level, message := message,
    data := Json.orNull data, page := env.path,
    userAgent := env.userAgent.take 100 }

/-- `log` (lines 42 to 59): build the entry, push it onto the durable
log, persist, mirror to the console on localhost.  The function body
has no return statement, so its JavaScript result is `undefined`,
modelled as `none` in the first component. -/
def log (writeOk : Bool) (env : SLEnv) (level message : String) (data : Json)
    (s : SLState) : Option SLEntry × SLState :=
  let entry := mkSLEntry env level message data
  (none, saveLogs writeOk { s with logs := s.logs ++ [entry] })

/-- `info` (line 61): calls `log` with level `INFO`, discarding its
result; the wrapper itself also returns `undefined`. -/
def info (writeOk : Bool) (env : SLEnv) (message : String) (data : Json)
    (s : SLState) : Option SLEntry × SLState :=
  (none, (log writeOk env "INFO" message data s).2)

/-- `warn` (line 62): calls `log` with level `WARN`. -/
def warn (writeOk : Bool) (env : SLEnv) (message : String) (data : Json)
    (s : SLState) : Option SLEntry × SLState :=
  (none, (log writeOk env "WARN" message data s).2)

/-- `error` (line 63): calls `log` with level `ERROR`. -/
def error (writeOk : Bool) (env : SLEnv) (message : String) (data : Json)
    (s : SLState) : Option SLEntry × SLState :=
  (none, (log writeOk env "ERROR" message data s).2)

/-- `getLogs` (lines 85 to 90): with a truthy `level` argument, return
the entries whose `level` field equals it; with `undefined` (`none`) or
a falsy level (the empty string), return the whole durable log. -/
def getLogs (s : SLState) (level : Option String) : List SLEntry :=
  match level with
  | some lv => if lv = "" then s.logs else s.logs.filter (fun e => e.level = lv)
  | none => s.logs

/-- `clearLogs` (lines 92 to 95): empty the in-memory log, then call
`localStorage.removeItem` with no try/catch around it; a throwing
`removeItem` (`removeOk = false`) propagates to the caller. -/
def clearLogs (removeOk : Bool) (s : SLState) : Except SLState SLState :=
  let s2 : SLState := { s with logs := [] }
  if removeOk then .ok { s2 with slot := .absent } else .error s2

end SimpleLogger

namespace StaticLogger

/-- One capture call of the batching logger made after startup, with
the storage-write outcome and environment snapshot of that call. -/
inductive Capture where
  | logCall (writeOk : Bool) (env : Env) (message : String) (data : Json) : Capture
  | errorCall (writeOk : Bool) (env : Env) (message : String) (data : Json) : Capture

/-- The entry a capture call creates. -/
def captureEntry (cfg : Config) : Capture → LogEntry
  | .logCall _ env m d => mkLogEntry cfg env m d
  | .errorCall _ env m d => mkErrorEntry cfg env m d

/-- Running one capture call against the state. -/
def applyCapture (cfg : Config) (s : State) (c : Capture) : State :=
  match c with
  | .logCall ok env m d => (log ok env cfg m d s).2
  | .errorCall ok env m d => (logError ok env cfg m d s).2

/-- Running a sequence of capture calls in order. -/
def runCaptures (cfg : Config) (s : State) (cs : List Capture) : State :=
  cs.foldl (applyCapture cfg) s

theorem trimEntries_eq_drop (l : List LogEntry) :
    trimEntries l = l.drop (l.length - 100) := by
  unfold trimEntries MAX_ENTRIES
  by_cases h : l.length > 100
  · simp [h]
  · have h0 : l.length - 100 = 0 := by omega
    simp [h, h0]

theorem length_trimEntries (l : List LogEntry) :
    (trimEntries l).length = min l.length 100 := by
  rw [trimEntries_eq_drop, List.length_drop]
  omega

theorem trimEntries_le (l : List LogEntry) : (trimEntries l).length ≤ 100 := by
  rw [length_trimEntries]; omega

theorem trimEntries_of_le (l : List LogEntry) (h : l.length ≤ 100) :
    trimEntries l = l := by
  rw [trimEntries_eq_drop]
  have h0 : l.length - 100 = 0 := by omega
  simp [h0]

theorem trimEntries_suffix (l : List LogEntry) : trimEntries l <:+ l := by
  rw [trimEntries_eq_drop]
  exact List.drop_suffix _ _

theorem trimEntries_append_one (l : List LogEntry) (e : LogEntry) :
    trimEntries (trimEntries l ++ [e]) = trimEntries (l ++ [e]) := by
  rcases le_or_lt l.length 100 with h | h
  · rw [trimEntries_of_le l h]
  · rw [trimEntries_eq_drop l, trimEntries_eq_drop, trimEntries_eq_drop]
    have hd : (l.drop (l.length - 100)).length = 100 := by
      rw [List.length_drop]; omega
    have hl1 : (l.drop (l.length - 100) ++ [e]).length = 101 := by
      rw [List.length_append, hd]; rfl
    have hl2 : (l ++ [e]).length = l.length + 1 := by
      rw [List.length_append]; rfl
    have h1 : (l.drop (l.length - 100) ++ [e]).length - 100 = 1 := by omega
    have h2 : (l ++ [e]).length - 100 = (l.length - 100) + 1 := by omega
    rw [h1, h2]
    rw [List.drop_append_of_le_length (by omega : (1 : Nat) ≤ (l.drop (l.length - 100)).length),
        List.drop_drop,
        List.drop_append_of_le_length (by omega : l.length - 100 + 1 ≤ l.length)]

theorem applyCapture_entries (cfg : Config) (s : State) (c : Capture) :
    (applyCapture cfg s c).entries = trimEntries (s.entries ++ [captureEntry cfg c]) := by
  cases c <;> rfl

theorem applyCapture_pending (cfg : Config) (s : State) (c : Capture) :
    (applyCapture cfg s c).pendingEntries = s.pendingEntries ++ [captureEntry cfg c] := by
  cases c <;> rfl

theorem runCaptures_entries (cfg : Config) :
    ∀ (cs : List Capture) (s : State) (full : List LogEntry),
      s.entries = trimEntries full →
      (runCaptures cfg s cs).entries = trimEntries (full ++ cs.map (captureEntry cfg)) := by
  intro cs
  induction cs with
  | nil => intro s full h; simpa [runCaptures] using h
  | cons c rest ih =>
      intro s full h
      have hstep : (applyCapture cfg s c).entries = trimEntries (full ++ [captureEntry cfg c]) := by
        rw [applyCapture_entries, h, trimEntries_append_one]
      have := ih (applyCapture cfg s c) (full ++ [captureEntry cfg c]) hstep
      simpa [runCaptures, List.foldl_cons, List.append_assoc] using this

theorem decodeEntry_encodeEntry (e : LogEntry) :
    decodeEntry (encodeEntry e) = some e := by
  cases e <;> rfl

theorem decodeEntries_map (l : List LogEntry) :
    decodeEntries (l.map encodeEntry) = some l := by
  induction l with
  | nil => rfl
  | cons e rest ih => simp [decodeEntries, decodeEntry_encodeEntry, ih]

theorem decodeLog_encoded (l : List LogEntry) :
    decodeLog (.arr (l.map encodeEntry)) = some l := by
  simp [decodeLog, decodeEntries_map]

theorem sendPendingData_eq (cfg : Config) (s : State)
    (hEp : strTruthy cfg.apiEndpoint = true) (hNe : s.pendingEntries ≠ []) :
    sendPendingData cfg s =
      some (s.pendingEntries.take cfg.maxBatchSize,
            { s with pendingEntries := s.pendingEntries.drop cfg.maxBatchSize }) := by
  unfold sendPendingData
  rw [if_neg]
  intro hc
  rcases hc with hc | hc
  · rw [hEp] at hc; cases hc
  · exact hNe (List.isEmpty_iff.mp hc)

theorem sendPendingData_none (cfg : Config) (s : State)
    (h : strTruthy cfg.apiEndpoint = false ∨ s.pendingEntries = []) :
    sendPendingData cfg s = none := by
  unfold sendPendingData
  rw [if_pos]
  rcases h with h | h
  · exact Or.inl h
  · exact Or.inr (by simp [h])

theorem flush_entries (cfg : Config) (net : NetOutcome) (s : State) :
    (flush cfg net s).entries = s.entries := by
  by_cases hc : strTruthy cfg.apiEndpoint = false ∨ s.pendingEntries = []
  · unfold flush
    rw [sendPendingData_none cfg s hc]
  · push_neg at hc
    obtain ⟨h1, h2⟩ := hc
    have h1t : strTruthy cfg.apiEndpoint = true := by
      cases hb : strTruthy cfg.apiEndpoint
      · exact absurd hb h1
      · rfl
    unfold flush
    rw [sendPendingData_eq cfg s h1t h2]
    simp only [requeueOnFailure]
    split <;> rfl

theorem flush_pending_cases (cfg : Config) (net : NetOutcome) (s : State) :
    (flush cfg net s).pendingEntries = s.pendingEntries ∨
    (flush cfg net s).pendingEntries = s.pendingEntries.drop cfg.maxBatchSize := by
  by_cases hc : strTruthy cfg.apiEndpoint = false ∨ s.pendingEntries = []
  · left
    unfold flush
    rw [sendPendingData_none cfg s hc]
  · push_neg at hc
    obtain ⟨h1, h2⟩ := hc
    have h1t : strTruthy cfg.apiEndpoint = true := by
      cases hb : strTruthy cfg.apiEndpoint
      · exact absurd hb h1
      · rfl
    unfold flush
    rw [sendPendingData_eq cfg s h1t h2]
    simp only [requeueOnFailure]
    split
    · right; rfl
    · left
      simp [List.take_append_drop]

theorem responseSuccess_netFail (em : String) :
    responseSuccess (sendToApi (.netFail em)) = false := rfl

theorem flush_slot (cfg : Config) (net : NetOutcome) (s : State) :
    (flush cfg net s).slot = s.slot := by
  by_cases hc : strTruthy cfg.apiEndpoint = false ∨ s.pendingEntries = []
  · unfold flush
    rw [sendPendingData_none cfg s hc]
  · push_neg at hc
    obtain ⟨h1, h2⟩ := hc
    have h1t : strTruthy cfg.apiEndpoint = true := by
      cases hb : strTruthy cfg.apiEndpoint
      · exact absurd hb h1
      · rfl
    unfold flush
    rw [sendPendingData_eq cfg s h1t h2]
    simp only [requeueOnFailure]
    split <;> rfl

theorem flush_pending_netFail (cfg : Config) (em : String) (s : State) :
    (flush cfg (.netFail em) s).pendingEntries = s.pendingEntries := by
  by_cases hc : strTruthy cfg.apiEndpoint = false ∨ s.pendingEntries = []
  · unfold flush
    rw [sendPendingData_none cfg s hc]
  · push_neg at hc
    obtain ⟨h1, h2⟩ := hc
    have h1t : strTruthy cfg.apiEndpoint = true := by
      cases hb : strTruthy cfg.apiEndpoint
      · exact absurd hb h1
      · rfl
    unfold flush
    rw [sendPendingData_eq cfg s h1t h2]
    simp only [requeueOnFailure, responseSuccess_netFail]
    simp [List.take_append_drop]

end StaticLogger

namespace Examples

/-- Concrete environment snapshot used by the evaluation theorems. -/
def exEnv : StaticLogger.Env :=
  { newId := "k3x9a1b2c3", nowIso := "2026-10-12T00:00:00.000Z",
    path := "/index.html", title := "Home", referrer := "",
    screenWidth := 1920, screenHeight := 1080 }

/-- Concrete merged configuration with a configured endpoint. -/
def exCfg : StaticLogger.Config :=
  { StaticLogger.defaultConfig with
      apiEndpoint := some "https://collect.example/api",
      apiKey := some "key123",
      siteId := .str "maxaccounts" }

/-- A concrete INFO-level entry of the batching logger. -/
def exInfoEvent : StaticLogger.LogEntry :=
  .event "idA" "log" "2026-10-12T00:00:01.000Z" (.str "maxaccounts")
    "INFO" "hello" .null "/index.html"

/-- A concrete ERROR-level entry of the batching logger. -/
def exErrorEvent : StaticLogger.LogEntry :=
  .event "idB" "error" "2026-10-12T00:00:02.000Z" (.str "maxaccounts")
    "ERROR" "boom" (.obj [("x", .num 1)]) "/index.html"

/-- The state produced by `init` from an absent storage slot with the
concrete configuration (page view tracked). -/
def exInitState : StaticLogger.State :=
  StaticLogger.trackPageView true exEnv exCfg
    { entries := [], pendingEntries := [], slot := .absent }

/-- Two concrete capture calls made after startup. -/
def exCaptures : List StaticLogger.Capture :=
  [.logCall true exEnv "hello" (.num 7), .errorCall false exEnv "boom" .null]

/-- Concrete environment snapshot for the simple logger. -/
def exSLEnv : SimpleLogger.SLEnv :=
  { nowIso := "2026-10-12T00:00:00.000Z", path := "/index.html",
    referrer := "", screenWidth := 1920, screenHeight := 1080,
    userAgent := "Mozilla/5.0" }

/-- A concrete simple-logger state holding an INFO and an ERROR entry. -/
def exSLState : SimpleLogger.SLState :=
  { logs := [SimpleLogger.mkSLEntry exSLEnv "INFO" "hello" .null,
             SimpleLogger.mkSLEntry exSLEnv "ERROR" "boom" .null],
    slot := .absent }

end Examples

open StaticLogger Examples

/-- Claim C1: after `init` on an empty storage slot with `trackPageViews`
enabled, a sequence of N capture calls leaves the durable log with
exactly min (N + 1) 100 entries, and its content is the suffix of the
full insertion sequence (page view first, then the captured entries in
call order) obtained by dropping the oldest entries beyond the cap of
100: eviction is FIFO by insertion position. -/
theorem C1_capture_sequence_cap (writeOk : Bool) (env : Env) (cfg : Config)
    (cs : List Capture) (s0 : State)
    (hTrack : cfg.trackPageViews = true)
    (hInit : init writeOk env cfg .absent = some s0) :
    (runCaptures cfg s0 cs).entries.length = min (cs.length + 1) 100 ∧
    (runCaptures cfg s0 cs).entries =
      (mkPageViewEntry cfg env :: cs.map (captureEntry cfg)).drop (cs.length + 1 - 100) := by
  have hs0 : s0.entries = trimEntries [mkPageViewEntry cfg env] := by
    simp only [init, loadFromStorage, decodeLog, decodeEntries, hTrack, if_true,
      Option.some.injEq] at hInit
    rw [← hInit]
    rfl
  have hrun := runCaptures_entries cfg cs s0 [mkPageViewEntry cfg env] hs0
  have hfull : [mkPageViewEntry cfg env] ++ cs.map (captureEntry cfg)
      = mkPageViewEntry cfg env :: cs.map (captureEntry cfg) := rfl
  rw [hfull] at hrun
  have hlen : (mkPageViewEntry cfg env :: cs.map (captureEntry cfg)).length
      = cs.length + 1 := by
    simp
  constructor
  · rw [hrun, length_trimEntries, hlen]
  · rw [hrun, trimEntries_eq_drop, hlen]

/-- Witness for C1 at a concrete run: startup plus two captures give a
durable log of three entries, in insertion order with nothing evicted. -/
theorem C1_witness :
    (runCaptures exCfg exInitState exCaptures).entries.length
        = min (exCaptures.length + 1) 100 ∧
    (runCaptures exCfg exInitState exCaptures).entries =
      (mkPageViewEntry exCfg exEnv :: exCaptures.map (captureEntry exCfg)).drop
        (exCaptures.length + 1 - 100) :=
  C1_capture_sequence_cap true exEnv exCfg exCaptures exInitState rfl rfl

/-- A concrete state with an empty durable log and two pending entries. -/
def exPendState : State :=
  { entries := [], pendingEntries := [exInfoEvent, exErrorEvent], slot := .absent }

/-- Claim C2: with a configured (truthy) endpoint and a non-empty
pending queue, a flush attempt removes up to `maxBatchSize` entries
from the front of the pending queue (the oldest ones, in order), and
when the response does not indicate success the removed batch is put
back at the front of the pending queue, unchanged in content and
order, ahead of any entries enqueued after the flush attempt started;
the durable log is never touched.  No error reaches the caller: every
operation in the model is a total function, mirroring the catch
handlers of `sendToApi` and `sendPendingData`. -/
theorem C2_flush_failure_requeues_front (cfg : Config) (s : State)
    (hEp : strTruthy cfg.apiEndpoint = true)
    (hNe : s.pendingEntries ≠ []) :
    sendPendingData cfg s =
      some (s.pendingEntries.take cfg.maxBatchSize,
            { s with pendingEntries := s.pendingEntries.drop cfg.maxBatchSize }) ∧
    (∀ (later : List LogEntry) (resp : Json), responseSuccess resp = false →
      (requeueOnFailure (s.pendingEntries.take cfg.maxBatchSize) resp
          { s with pendingEntries :=
              s.pendingEntries.drop cfg.maxBatchSize ++ later }).pendingEntries
        = s.pendingEntries.take cfg.maxBatchSize
            ++ (s.pendingEntries.drop cfg.maxBatchSize ++ later)) ∧
    (∀ net, (flush cfg net s).entries = s.entries) := by
  refine ⟨sendPendingData_eq cfg s hEp hNe, ?_, fun net => flush_entries cfg net s⟩
  intro later resp hFail
  simp [requeueOnFailure, hFail]

/-- Witness for C2 at a concrete run: two pending entries, a batch size
of 20, a response body with success set to false. -/
theorem C2_witness :
    sendPendingData exCfg exPendState =
      some (exPendState.pendingEntries.take exCfg.maxBatchSize,
            { exPendState with pendingEntries :=
                exPendState.pendingEntries.drop exCfg.maxBatchSize }) ∧
    (requeueOnFailure (exPendState.pendingEntries.take exCfg.maxBatchSize)
        (.obj [("success", .bool false)])
        { exPendState with pendingEntries :=
            exPendState.pendingEntries.drop exCfg.maxBatchSize ++ [exInfoEvent] }).pendingEntries
      = exPendState.pendingEntries.take exCfg.maxBatchSize
          ++ (exPendState.pendingEntries.drop exCfg.maxBatchSize ++ [exInfoEvent]) ∧
    (flush exCfg (.netFail "connection refused") exPendState).entries
      = exPendState.entries :=
  ⟨(C2_flush_failure_requeues_front exCfg exPendState rfl (by simp [exPendState])).1,
   (C2_flush_failure_requeues_front exCfg exPendState rfl (by simp [exPendState])).2.1
     [exInfoEvent] (.obj [("success", .bool false)]) rfl,
   (C2_flush_failure_requeues_front exCfg exPendState rfl (by simp [exPendState])).2.2
     (.netFail "connection refused")⟩

/-- Claim C3: lifecycle invariant over all operations of the batching
logger.  Every capture (page view, error, explicit log) appends its new
entry to both the durable log and the pending queue; a flush never
touches the durable log and changes the pending queue only by removing
a batch from the front (the removal being undone when the transmission
fails, here shown for a network failure under the synchronous
schedule); the durable log after a capture is a suffix of the appended
log (FIFO eviction only) and is the whole appended log while within
the cap; and only `clear` empties both views, whether or not the
storage remove throws. -/
theorem C3_lifecycle_invariant (writeOk : Bool) (env : Env) (cfg : Config)
    (m : String) (d : Json) (s s2 : State) (net : NetOutcome)
    (batch : List LogEntry) (em : String) :
    ((log writeOk env cfg m d s).2.entries
        = trimEntries (s.entries ++ [mkLogEntry cfg env m d]) ∧
     (log writeOk env cfg m d s).2.pendingEntries
        = s.pendingEntries ++ [mkLogEntry cfg env m d]) ∧
    ((logError writeOk env cfg m d s).2.entries
        = trimEntries (s.entries ++ [mkErrorEntry cfg env m d]) ∧
     (logError writeOk env cfg m d s).2.pendingEntries
        = s.pendingEntries ++ [mkErrorEntry cfg env m d]) ∧
    ((trackPageView writeOk env cfg s).entries
        = trimEntries (s.entries ++ [mkPageViewEntry cfg env]) ∧
     (trackPageView writeOk env cfg s).pendingEntries
        = s.pendingEntries ++ [mkPageViewEntry cfg env]) ∧
    (trimEntries (s.entries ++ [mkLogEntry cfg env m d])
        <:+ s.entries ++ [mkLogEntry cfg env m d]) ∧
    (trimEntries ((log writeOk env cfg m d s).2.entries ++ [mkErrorEntry cfg env m d])
        <:+ (log writeOk env cfg m d s).2.entries ++ [mkErrorEntry cfg env m d]) ∧
    ((flush cfg net s).entries = s.entries) ∧
    ((flush cfg net s).pendingEntries = s.pendingEntries ∨
     (flush cfg net s).pendingEntries = s.pendingEntries.drop cfg.maxBatchSize) ∧
    ((requeueOnFailure batch (sendToApi (.netFail em)) s2).pendingEntries
        = batch ++ s2.pendingEntries) ∧
    ((flush cfg (.netFail em) s).pendingEntries = s.pendingEntries) ∧
    (clear true s = .ok { entries := [], pendingEntries := [], slot := .absent }) ∧
    (clear false s = .error { entries := [], pendingEntries := [], slot := s.slot }) := by
  refine ⟨⟨rfl, rfl⟩, ⟨rfl, rfl⟩, ⟨rfl, rfl⟩,
    trimEntries_suffix _, trimEntries_suffix _,
    flush_entries cfg net s, flush_pending_cases cfg net s,
    rfl, flush_pending_netFail cfg em s, rfl, rfl⟩

/-- Claim C4 counterexample: in the batching variant, `getEntries`
takes no parameter and ignores a level filter passed by the caller.  On
a durable log holding one INFO entry, `getEntries` called with the
filter ERROR returns that INFO entry, not the (empty) subset of
entries whose level equals ERROR. -/
theorem C4_counterexample :
    getEntries { entries := [exInfoEvent], pendingEntries := [], slot := .absent }
        (some "ERROR") = [exInfoEvent] ∧
    exInfoEvent.level = some "INFO" ∧
    some "INFO" ≠ some "ERROR" :=
  ⟨rfl, rfl, by decide⟩

/-- Claim C4 (amended): the batching variant returns the whole durable
log whatever filter argument is passed; the level filter of the spec is
implemented by `getLogs` of the simple variant, which, for every
nonempty (truthy) level string, returns exactly the subset of durable
log entries whose `level` equals the filter, in original order, and
returns the whole durable log when called with no filter. -/
theorem C4_level_filter (s : State) (fl : Option String)
    (sl : SimpleLogger.SLState) (lv : String) (hlv : lv ≠ "") :
    getEntries s fl = s.entries ∧
    SimpleLogger.getLogs sl (some lv) = sl.logs.filter (fun e => e.level = lv) ∧
    (∀ e, e ∈ SimpleLogger.getLogs sl (some lv) ↔ e ∈ sl.logs ∧ e.level = lv) ∧
    List.Sublist (SimpleLogger.getLogs sl (some lv)) sl.logs ∧
    SimpleLogger.getLogs sl none = sl.logs := by
  have hg : SimpleLogger.getLogs sl (some lv)
      = sl.logs.filter (fun e => e.level = lv) := by
    simp [SimpleLogger.getLogs, hlv]
  refine ⟨rfl, hg, ?_, ?_, rfl⟩
  · intro e
    rw [hg]
    simp [List.mem_filter]
  · rw [hg]
    exact List.filter_sublist _

/-- Witness for C4 at a concrete log holding an INFO and an ERROR
entry, filtered by ERROR. -/
theorem C4_witness :
    getEntries exPendState none = exPendState.entries ∧
    SimpleLogger.getLogs exSLState (some "ERROR")
      = exSLState.logs.filter (fun e => e.level = "ERROR") ∧
    List.Sublist (SimpleLogger.getLogs exSLState (some "ERROR")) exSLState.logs ∧
    SimpleLogger.getLogs exSLState none = exSLState.logs :=
  ⟨(C4_level_filter exPendState none exSLState "ERROR" (by decide)).1,
   (C4_level_filter exPendState none exSLState "ERROR" (by decide)).2.1,
   (C4_level_filter exPendState none exSLState "ERROR" (by decide)).2.2.2.1,
   (C4_level_filter exPendState none exSLState "ERROR" (by decide)).2.2.2.2⟩

/-- Claim C5 counterexample: in the simple variant the capture calls
`log`, `info`, `warn` and `error` have no return statement, so each
returns undefined (modelled `none`) rather than the created entry,
refuting the claim that every capture call returns the created entry
to the caller (the simple variant also has no pending queue to append
to). -/
theorem C5_counterexample :
    (SimpleLogger.log true exSLEnv "INFO" "hello" .null
        { logs := [], slot := .absent }).1 = none ∧
    (SimpleLogger.info true exSLEnv "hello" .null
        { logs := [], slot := .absent }).1 = none ∧
    (SimpleLogger.warn true exSLEnv "careful" .null
        { logs := [], slot := .absent }).1 = none ∧
    (SimpleLogger.error true exSLEnv "boom" .null
        { logs := [], slot := .absent }).1 = none :=
  ⟨rfl, rfl, rfl, rfl⟩

/-- Claim C5 (amended): in the batching variant, `log` and `logError`
construct a LogEntry carrying the freshly generated id and the current
clock reading, append it to both the durable log and the pending
queue, persist the durable log, and return the created entry; in the
simple variant, the capture calls construct the entry, append it to
the durable log only, persist it, and return undefined. -/
theorem C5_capture_contract (writeOk : Bool) (env : Env) (cfg : Config)
    (m : String) (d : Json) (s : State)
    (senv : SimpleLogger.SLEnv) (lv : String) (ssl : SimpleLogger.SLState) :
    (log writeOk env cfg m d s).1
        = .event env.newId "log" env.nowIso cfg.siteId "INFO" m (Json.orNull d) env.path ∧
    (logError writeOk env cfg m d s).1
        = .event env.newId "error" env.nowIso cfg.siteId "ERROR" m (Json.orNull d) env.path ∧
    (log writeOk env cfg m d s).2.entries
        = trimEntries (s.entries ++ [(log writeOk env cfg m d s).1]) ∧
    (log writeOk env cfg m d s).2.pendingEntries
        = s.pendingEntries ++ [(log writeOk env cfg m d s).1] ∧
    (log true env cfg m d s).2.slot
        = .json (.arr (((log true env cfg m d s).2.entries).map encodeEntry)) ∧
    (logError writeOk env cfg m d s).2.entries
        = trimEntries (s.entries ++ [(logError writeOk env cfg m d s).1]) ∧
    (logError writeOk env cfg m d s).2.pendingEntries
        = s.pendingEntries ++ [(logError writeOk env cfg m d s).1] ∧
    (logError true env cfg m d s).2.slot
        = .json (.arr (((logError true env cfg m d s).2.entries).map encodeEntry)) ∧
    (SimpleLogger.log writeOk senv lv m d ssl).1 = none ∧
    (SimpleLogger.log writeOk senv lv m d ssl).2.logs
        = SimpleLogger.trimLogs (ssl.logs ++ [SimpleLogger.mkSLEntry senv lv m d]) :=
  ⟨rfl, rfl, rfl, rfl, rfl, rfl, rfl, rfl, rfl, rfl⟩

namespace SimpleLogger

theorem trimLogs_eq_drop (l : List SLEntry) :
    trimLogs l = l.drop (l.length - 100) := by
  unfold trimLogs MAX_LOGS
  by_cases h : l.length > 100
  · simp [h]
  · have h0 : l.length - 100 = 0 := by omega
    simp [h, h0]

theorem trimLogs_le (l : List SLEntry) : (trimLogs l).length ≤ 100 := by
  rw [trimLogs_eq_drop, List.length_drop]
  omega

end SimpleLogger

/-- A configuration with page-view tracking turned off, endpoint
absent, otherwise the defaults. -/
def noTrackCfg : Config :=
  { defaultConfig with trackPageViews := false }

/-- Claim C6 (evaluating the load on the failing input): on a stored
value that is valid JSON but not an array, `loadFromStorage` assigns
the parsed non-array value to the durable log instead of discarding it
(first conjunct); the state machine then leaves the well-typed states,
modelled as `none` (second conjunct) — in the source the next
`this.entries.push` throws a TypeError.  On a stored value that is not
valid JSON the parse failure is caught and the log does start empty
(third and fourth conjuncts), as the claim says. -/
theorem C6_nonarray_not_discarded :
    loadFromStorage (.json (.obj [("a", Json.num 1)])) = .obj [("a", Json.num 1)] ∧
    init true exEnv exCfg (.json (.obj [("a", Json.num 1)])) = none ∧
    loadFromStorage .malformed = .arr [] ∧
    init true exEnv exCfg .malformed
      = some (trackPageView true exEnv exCfg
          { entries := [], pendingEntries := [], slot := .malformed }) :=
  ⟨rfl, rfl, rfl, rfl⟩

/-- Claim C7 counterexample: `clear` calls `localStorage.removeItem`
outside any try/catch (lines 239 to 243 of `part_002`); when the
remove throws, the exception escapes to the caller of `clear` (the
`error` result), refuting the claim that a throwing storage remove is
swallowed for every public operation. -/
theorem C7_counterexample :
    clear false
        { entries := [exInfoEvent], pendingEntries := [exInfoEvent],
          slot := .json (.arr [encodeEntry exInfoEvent]) }
      = .error { entries := [], pendingEntries := [],
                 slot := .json (.arr [encodeEntry exInfoEvent]) } ∧
    (clear false
        { entries := [exInfoEvent], pendingEntries := [exInfoEvent],
          slot := .json (.arr [encodeEntry exInfoEvent]) }).isOk = false :=
  ⟨rfl, rfl⟩

/-- Claim C7 (amended): a throwing storage read or write is swallowed —
the load starts from an empty log, and a capture call completes with
the same in-memory result and return value as under a healthy storage;
`getEntries` touches no storage; but `clearEntries` (both variants)
guards nothing: it empties the in-memory views first and then performs
the storage remove, so a throwing remove propagates to its caller
after the in-memory clear has taken effect. -/
theorem C7_storage_failure_policy (env : Env) (cfg : Config)
    (m : String) (d : Json) (s : State) (fl : Option String)
    (net : NetOutcome) (ssl : SimpleLogger.SLState) :
    loadFromStorage .malformed = .arr [] ∧
    loadFromStorage .absent = .arr [] ∧
    (log false env cfg m d s).1 = (log true env cfg m d s).1 ∧
    (log false env cfg m d s).2.entries = (log true env cfg m d s).2.entries ∧
    (log false env cfg m d s).2.pendingEntries
        = (log true env cfg m d s).2.pendingEntries ∧
    (logError false env cfg m d s).2.entries
        = (logError true env cfg m d s).2.entries ∧
    (logError false env cfg m d s).2.pendingEntries
        = (logError true env cfg m d s).2.pendingEntries ∧
    (trackPageView false env cfg s).entries = (trackPageView true env cfg s).entries ∧
    (trackPageView false env cfg s).pendingEntries
        = (trackPageView true env cfg s).pendingEntries ∧
    getEntries s fl = s.entries ∧
    (flush cfg net s).slot = s.slot ∧
    clear true s = .ok { entries := [], pendingEntries := [], slot := .absent } ∧
    clear false s = .error { entries := [], pendingEntries := [], slot := s.slot } ∧
    SimpleLogger.clearLogs false ssl = .error { logs := [], slot := ssl.slot } :=
  ⟨rfl, rfl, rfl, rfl, rfl, rfl, rfl, rfl, rfl, rfl,
   flush_slot cfg net s, rfl, rfl, rfl⟩

/-- Claim C8: round trip through the storage slot.  Saving a durable
log of at most 100 entries writes exactly its serialization (nothing
evicted), and reloading that slot as on a fresh page load (here with
page-view tracking off, to isolate the reload) reproduces the same
ordered sequence of entries, field for field — `decodeLog` reads every
field of every serialized entry back. -/
theorem C8_round_trip (l p : List LogEntry) (sl : Stored) (h : l.length ≤ 100) :
    (saveToStorage true { entries := l, pendingEntries := p, slot := sl }).slot
        = .json (.arr (l.map encodeEntry)) ∧
    (saveToStorage true { entries := l, pendingEntries := p, slot := sl }).entries = l ∧
    decodeLog (loadFromStorage (.json (.arr (l.map encodeEntry)))) = some l ∧
    (∀ env, init true env noTrackCfg (.json (.arr (l.map encodeEntry)))
        = some { entries := l, pendingEntries := [],
                 slot := .json (.arr (l.map encodeEntry)) }) := by
  have ht : trimEntries l = l := trimEntries_of_le l h
  refine ⟨?_, ?_, ?_, ?_⟩
  · simp [saveToStorage, ht]
  · simp [saveToStorage, ht]
  · simpa [loadFromStorage] using decodeLog_encoded l
  · intro env
    simp [init, loadFromStorage, decodeLog_encoded, noTrackCfg, defaultConfig]

/-- Witness for C8 at a concrete two-entry durable log. -/
theorem C8_witness :
    (saveToStorage true
        { entries := [exInfoEvent, exErrorEvent], pendingEntries := [],
          slot := .absent }).slot
      = .json (.arr ([exInfoEvent, exErrorEvent].map encodeEntry)) ∧
    decodeLog (loadFromStorage (.json (.arr ([exInfoEvent, exErrorEvent].map encodeEntry))))
      = some [exInfoEvent, exErrorEvent] ∧
    init true exEnv noTrackCfg (.json (.arr ([exInfoEvent, exErrorEvent].map encodeEntry)))
      = some { entries := [exInfoEvent, exErrorEvent], pendingEntries := [],
               slot := .json (.arr ([exInfoEvent, exErrorEvent].map encodeEntry)) } :=
  ⟨(C8_round_trip [exInfoEvent, exErrorEvent] [] .absent (by decide)).1,
   (C8_round_trip [exInfoEvent, exErrorEvent] [] .absent (by decide)).2.2.1,
   (C8_round_trip [exInfoEvent, exErrorEvent] [] .absent (by decide)).2.2.2 exEnv⟩

/-- Claim C9: entries loaded from durable storage at startup are placed
only in the durable log.  After `init` on a slot holding the loaded
entries, the pending queue holds exactly the page-view entry created
during this page load when `trackPageViews` is enabled, and nothing at
all when it is disabled; the loaded entries sit only in the durable
log, so a flush can never transmit them. -/
theorem C9_loaded_entries_not_pending (writeOk : Bool) (env : Env) (cfg : Config)
    (loaded : List LogEntry) (s0 : State)
    (hInit : init writeOk env cfg (.json (.arr (loaded.map encodeEntry))) = some s0) :
    (cfg.trackPageViews = true →
        s0.pendingEntries = [mkPageViewEntry cfg env] ∧
        s0.entries = trimEntries (loaded ++ [mkPageViewEntry cfg env])) ∧
    (cfg.trackPageViews = false →
        s0.pendingEntries = [] ∧ s0.entries = loaded) := by
  simp only [init, loadFromStorage, decodeLog_encoded, Option.some.injEq] at hInit
  constructor
  · intro hT
    simp only [hT, if_true] at hInit
    rw [← hInit]
    exact ⟨rfl, rfl⟩
  · intro hF
    simp only [hF, Bool.false_eq_true, if_false] at hInit
    rw [← hInit]
    exact ⟨rfl, rfl⟩

/-- The state `init` produces from a slot holding one stored entry with
the concrete configuration. -/
def exInitState9 : State :=
  trackPageView true exEnv exCfg
    { entries := [exErrorEvent], pendingEntries := [],
      slot := .json (.arr ([exErrorEvent].map encodeEntry)) }

/-- Witness for C9 at a concrete startup over one stored entry with
page-view tracking on. -/
theorem C9_witness :
    exInitState9.pendingEntries = [mkPageViewEntry exCfg exEnv] ∧
    exInitState9.entries = trimEntries ([exErrorEvent] ++ [mkPageViewEntry exCfg exEnv]) :=
  (C9_loaded_entries_not_pending true exEnv exCfg [exErrorEvent] exInitState9 rfl).1 rfl

/-- Claim C10: after every capture call the in-memory durable log holds
at most 100 entries even when the durable-storage write fails: the
eviction trim is applied to the in-memory array before the write is
attempted, so the in-memory durable log does not depend on the write
outcome.  Both variants behave this way. -/
theorem C10_cap_holds_on_write_failure (writeOk : Bool) (env : Env) (cfg : Config)
    (m : String) (d : Json) (s : State)
    (senv : SimpleLogger.SLEnv) (lv : String) (ssl : SimpleLogger.SLState) :
    (log writeOk env cfg m d s).2.entries.length ≤ 100 ∧
    (logError writeOk env cfg m d s).2.entries.length ≤ 100 ∧
    (trackPageView writeOk env cfg s).entries.length ≤ 100 ∧
    (log false env cfg m d s).2.entries = (log true env cfg m d s).2.entries ∧
    (logError false env cfg m d s).2.entries = (logError true env cfg m d s).2.entries ∧
    (trackPageView false env cfg s).entries = (trackPageView true env cfg s).entries ∧
    (SimpleLogger.log writeOk senv lv m d ssl).2.logs.length ≤ 100 ∧
    (SimpleLogger.log false senv lv m d ssl).2.logs
        = (SimpleLogger.log true senv lv m d ssl).2.logs :=
  ⟨trimEntries_le _, trimEntries_le _, trimEntries_le _, rfl, rfl, rfl,
   SimpleLogger.trimLogs_le _, rfl⟩
